import Mathlib

/-! Verification development for the PRIME trading-agent decision engines.

Shallow embedding of the three agent classes:
  src/InitialOrderAgent.py   (liquidity-seeding ladder strategy),
  src/ZI_market_order.py     (directional zero-intelligence market-order strategy),
  src/agents/MomentumAgent.py (momentum / moving-average-crossover strategy).

The discrete-event kernel, the order book, the oracle and the TradingAgent base
class are external collaborators: their outputs (market-open flags, spread
snapshots, oracle samples, random draws) appear here as explicit inputs to the
embedded transition functions, and the agents' outbound calls (order placement,
spread requests, wakeup scheduling) are reified as an action list.  Numeric
values carried by Python floats are modelled exactly as rationals. -/

/-- The four phases of the agents' state machines (Python string states). -/
inductive Phase
  | INACTIVE
  | AWAITING_WAKEUP
  | AWAITING_SPREAD
  | ACTIVE
  deriving DecidableEq

/-- Kinds of inbound messages; the agents only inspect whether
the message body tag equals the string QUERY_SPREAD. -/
inductive MsgKind
  | QUERY_SPREAD
  | other
  deriving DecidableEq

/-- A limit order as passed to placeLimitOrder(symbol, quantity, is buy, limit price). -/
structure LimOrder where
  is_buy : Bool
  quantity : ℕ
  limit_price : ℤ
  deriving DecidableEq

/-- A market order as passed to placeMarketOrder(symbol, quantity, is buy). -/
structure MktOrder where
  is_buy : Bool
  quantity : ℕ
  deriving DecidableEq

/-- Reified outbound calls made by an agent during one handler run, in order. -/
inductive Act
  | setWakeup (t : ℚ)
  | requestSpread
  | placeLimit (o : LimOrder)
  | placeMarket (o : MktOrder)
  | cancelAll
  deriving DecidableEq

/-- Market-session facts supplied by the TradingAgent base class / kernel at the
time a handler runs: whether the open and close times have been discovered,
whether the market has closed, and whether the daily close price for the
agent's symbol has been recorded in daily_close_price. -/
structure MktEnv where
  mkt_open : Bool
  mkt_close : Bool
  mkt_closed : Bool
  haveClosePrice : Bool
  deriving DecidableEq

/-- A spread snapshot as returned by getKnownBidAsk: best bid / best ask
(absent = Python None) and the resting sizes. -/
structure Snapshot where
  bid : Option ℤ
  bidsize : ℕ
  ask : Option ℤ
  asksize : ℕ
  deriving DecidableEq

/-- Scalar semantics of numpy rounding (np.round and Python round on numpy
floats): round half to even, on an exact rational. -/
def np_round (q : ℚ) : ℤ :=
  if 2 * (q - ⌊q⌋) = 1 then (if ⌊q⌋ % 2 = 0 then ⌊q⌋ else ⌊q⌋ + 1) else round q

namespace InitialOrderAgent

/-- Mutable fields of InitialOrderAgent that its own handlers read or write. -/
structure State where
  fill : Bool
  cancel : Bool
  first_run : Bool
  second_run : Bool
  trading : Bool
  phase : Phase
  deriving DecidableEq

/-- Constructed state: fill = True, cancel = False, first and second run
pending, not yet trading, state AWAITING_WAKEUP. -/
def init : State :=
  { fill := true, cancel := false, first_run := true, second_run := true,
    trading := false, phase := Phase.AWAITING_WAKEUP }

/-- getWakeFrequency: staged fixed delays (10 ns, then 300000000000 ns, then
30000000000000 ns), consuming the first and second run flags. -/
def getWakeFrequency (s : State) : ℚ × State :=
  if s.first_run then (10, { s with first_run := false })
  else if s.second_run then (300000000000, { s with second_run := false })
  else (30000000000000, s)

/-- updateEstimates: np.round of the oracle's observeDiscretePrice sample. -/
def updateEstimates (obs : ℚ) : ℤ := np_round obs

/-- Quantity used at ladder offset i: np.min([i + 1, 5]). -/
def ladderQuantity (i : ℕ) : ℕ := min (i + 1) 5

/-- placeOrder: for i in range(1, 100), place a buy limit order at
int(round(p) - i) and a sell limit order at int(round(p) + i), each with
quantity min(i + 1, 5).  The valuation p returned by updateEstimates is already
an integer, so round(p) = p. -/
def placeOrder (p : ℤ) : List LimOrder :=
  (List.range' 1 99).flatMap fun i =>
    [⟨true, ladderQuantity i, p - (i : ℤ)⟩, ⟨false, ladderQuantity i, p + (i : ℤ)⟩]

/-- wakeup(currentTime): the full handler.  Returns the new state and the
ordered outbound calls.  t is currentTime. -/
def wakeup (env : MktEnv) (t : ℚ) (s : State) : State × List Act :=
  let s := { s with phase := Phase.INACTIVE }
  if !env.mkt_open || !env.mkt_close then (s, [])
  else
    let s := { s with trading := true }
    if env.mkt_closed && env.haveClosePrice then (s, [])
    else
      let wf := getWakeFrequency s
      let s := wf.2
      let acts := [Act.setWakeup (t + wf.1)]
      if env.mkt_closed && !env.haveClosePrice then
        ({ s with phase := Phase.AWAITING_SPREAD }, acts ++ [Act.requestSpread])
      else if s.cancel && s.fill then
        ({ s with phase := Phase.INACTIVE }, acts)
      else if s.cancel then
        ({ s with phase := Phase.AWAITING_WAKEUP }, acts ++ [Act.cancelAll])
      else if s.fill then
        ({ s with cancel := true, phase := Phase.AWAITING_SPREAD },
         acts ++ [Act.requestSpread])
      else (s, acts)

/-- receiveMessage(currentTime, msg): only reacts to QUERY_SPREAD while in
AWAITING_SPREAD; obs is the oracle sample consumed by updateEstimates. -/
def receiveMessage (env : MktEnv) (obs : ℚ) (k : MsgKind) (s : State) :
    State × List Act :=
  if s.phase = Phase.AWAITING_SPREAD ∧ k = MsgKind.QUERY_SPREAD then
    if env.mkt_closed then (s, [])
    else ({ s with phase := Phase.AWAITING_WAKEUP },
          (placeOrder (updateEstimates obs)).map Act.placeLimit)
  else (s, [])

end InitialOrderAgent

/-- Bounded search for the least r with 2^20 * x^7 < (2r + 1)^20, used to
compute np.round(x ** 0.35) exactly. -/
def pow035search (x : ℕ) : ℕ → ℕ → ℕ
  | 0, r => r
  | fuel + 1, r =>
    if 2 ^ 20 * x ^ 7 < (2 * r + 1) ^ 20 then r else pow035search x fuel (r + 1)

/-- np.round(x ** 0.35) for a natural depth x, computed exactly: the nearest
integer to x^(7/20).  r is the nearest integer iff
(2r - 1)^20 ≤ 2^20 * x^7 < (2r + 1)^20 (monotonicity of t ↦ t^20 on
nonnegatives), and a tie x^(7/20) = r + 1/2 is impossible because (2r + 1)^20
is odd while 2^20 * x^7 is even or zero; so the value is the least r with
2^20 * x^7 < (2r + 1)^20.  The answer is at most x + 1, so fuel x + 1 from
candidate 0 suffices. -/
def np_round_pow035 (x : ℕ) : ℕ := pow035search x (x + 1) 0

namespace ZI_market_order_agent

/-- Mutable fields of ZI_market_order_agent that its live handlers touch. -/
structure State where
  trading : Bool
  phase : Phase
  order_count : ℕ
  buy_order_count : ℕ
  order_size : ℕ
  deriving DecidableEq

/-- Constructed state. -/
def init : State :=
  { trading := false, phase := Phase.AWAITING_WAKEUP, order_count := 0,
    buy_order_count := 0, order_size := 1 }

/-- updateEstimates: np.round of the oracle's observeDiscretePrice sample. -/
def updateEstimates (obs : ℚ) : ℤ := np_round obs

/-- getWakeFrequency: Timedelta(int(round(delta)) ns) of the private-stream
exponential draw delta. -/
def getWakeFrequency (delta_time : ℚ) : ℚ := (np_round delta_time : ℚ)

/-- modifyWakeFrequency: the time-of-day scaling hook; its body is commented
out in the source, so it returns the wake frequency unchanged. -/
def modifyWakeFrequency (_current_time : ℚ) (wakeFrequency : ℚ) : ℚ :=
  wakeFrequency

/-- placeOrder: reads the snapshot, samples the oracle, compares the estimate
with mid = (bid + ask) / 2 and emits one market order sized
np.round(opposing size ** 0.35), or nothing on a tie.  A missing bid or ask
makes the Python mid computation raise a TypeError, modelled as error. -/
def placeOrder (snap : Snapshot) (obs : ℚ) (s : State) :
    Except Unit (State × List Act) :=
  match snap.bid, snap.ask with
  | some bid, some ask =>
      let obs_t := updateEstimates obs
      let mid : ℚ := ((bid : ℚ) + (ask : ℚ)) / 2
      if (obs_t : ℚ) > mid then
        let s := { s with order_count := s.order_count + 1,
                          buy_order_count := s.buy_order_count + 1,
                          order_size := np_round_pow035 snap.asksize }
        Except.ok (s, [Act.placeMarket ⟨true, s.order_size⟩])
      else if (obs_t : ℚ) < mid then
        let s := { s with order_count := s.order_count + 1,
                          order_size := np_round_pow035 snap.bidsize }
        Except.ok (s, [Act.placeMarket ⟨false, s.order_size⟩])
      else Except.ok (s, [])
  | _, _ => Except.error ()

/-- wakeup(currentTime): t is currentTime, delta the private exponential draw.
Both live branches after the close handling request the spread (the source
distinguishes the exact class from subclasses; for the exact class a request is
issued). -/
def wakeup (env : MktEnv) (t delta : ℚ) (s : State) : State × List Act :=
  let s := { s with phase := Phase.INACTIVE }
  if !env.mkt_open || !env.mkt_close then (s, [])
  else
    let s := { s with trading := true }
    if env.mkt_closed && env.haveClosePrice then (s, [])
    else
      let wake_time := modifyWakeFrequency t (getWakeFrequency delta)
      let acts := [Act.setWakeup (t + wake_time)]
      if env.mkt_closed && !env.haveClosePrice then
        ({ s with phase := Phase.AWAITING_SPREAD }, acts ++ [Act.requestSpread])
      else
        ({ s with phase := Phase.AWAITING_SPREAD }, acts ++ [Act.requestSpread])

/-- receiveMessage: only reacts to QUERY_SPREAD while AWAITING_SPREAD; if the
market has since closed the response is dropped, otherwise placeOrder runs and
the phase returns to AWAITING_WAKEUP. -/
def receiveMessage (env : MktEnv) (snap : Snapshot) (obs : ℚ) (k : MsgKind)
    (s : State) : Except Unit (State × List Act) :=
  if s.phase = Phase.AWAITING_SPREAD ∧ k = MsgKind.QUERY_SPREAD then
    if env.mkt_closed then Except.ok (s, [])
    else
      match placeOrder snap obs s with
      | Except.ok (s1, acts) =>
          Except.ok ({ s1 with phase := Phase.AWAITING_WAKEUP }, acts)
      | Except.error e => Except.error e
  else Except.ok (s, [])

end ZI_market_order_agent

/-- True exactly on the spread-request action. -/
def isRequestSpread : Act → Bool
  | Act.requestSpread => true
  | _ => false

/-- True exactly on the wakeup-scheduling action. -/
def isSetWakeup : Act → Bool
  | Act.setWakeup _ => true
  | _ => false

/-- True exactly on order-placing actions. -/
def isOrderAct : Act → Bool
  | Act.placeLimit _ => true
  | Act.placeMarket _ => true
  | _ => false

/-- Number of spread requests issued in one handler run. -/
def countReq (acts : List Act) : ℕ := acts.countP isRequestSpread

/-- One stimulus delivered to the ZI agent: a scheduled wakeup (with the
session facts, the current time and the private exponential draw) or an inbound
message (with the session facts, the known snapshot, the oracle draw and the
message kind). -/
inductive ZIEvent
  | wakeup (env : MktEnv) (t delta : ℚ)
  | msg (env : MktEnv) (snap : Snapshot) (obs : ℚ) (k : MsgKind)

/-- Agent state instrumented with the number of spread requests issued and not
yet answered.  A response is counted as answering as soon as a QUERY_SPREAD
message is processed in phase AWAITING_SPREAD (even if it is then dropped
because the market closed, or the decision step fails on a missing quote). -/
structure ZIInstr where
  agent : ZI_market_order_agent.State
  outstanding : ℕ

/-- Instrumented transition: run the corresponding handler and track the
outstanding-request count. -/
def ziStep (e : ZIEvent) (st : ZIInstr) : ZIInstr :=
  match e with
  | ZIEvent.wakeup env t delta =>
      let r := ZI_market_order_agent.wakeup env t delta st.agent
      ⟨r.1, st.outstanding + countReq r.2⟩
  | ZIEvent.msg env snap obs k =>
      let s1 := match ZI_market_order_agent.receiveMessage env snap obs k st.agent with
                | Except.ok r => r.1
                | Except.error _ => st.agent
      if st.agent.phase = Phase.AWAITING_SPREAD ∧ k = MsgKind.QUERY_SPREAD then
        ⟨s1, st.outstanding - 1⟩
      else ⟨s1, st.outstanding⟩

/-- States reachable from construction through the agent's own transitions,
under the design assumption of spec section 5 that every spread response is
delivered before the agent's next wakeup: a wakeup is only delivered while no
request is outstanding. -/
inductive ReachAssuming : ZIInstr → Prop
  | init : ReachAssuming ⟨ZI_market_order_agent.init, 0⟩
  | wakeup (st : ZIInstr) (env : MktEnv) (t delta : ℚ) :
      ReachAssuming st → st.outstanding = 0 →
      ReachAssuming (ziStep (ZIEvent.wakeup env t delta) st)
  | msg (st : ZIInstr) (env : MktEnv) (snap : Snapshot) (obs : ℚ) (k : MsgKind) :
      ReachAssuming st → ReachAssuming (ziStep (ZIEvent.msg env snap obs k) st)

namespace MomentumAgent

/-- Mutable fields of MomentumAgent that its handlers touch, together with the
construction-time window configuration. -/
structure State where
  mid_list : List ℚ
  ma_short : Option ℚ
  ma_long : Option ℚ
  bidvol : ℕ
  askvol : ℕ
  phase : Phase
  short_duration : ℕ
  long_duration : ℕ
  margin : ℚ
  deriving DecidableEq

/-- Constructed state with the given window configuration (defaults in the
source: short 20, long 40, margin 0). -/
def init (short_duration long_duration : ℕ) (margin : ℚ) : State :=
  { mid_list := [], ma_short := none, ma_long := none, bidvol := 0, askvol := 0,
    phase := Phase.AWAITING_WAKEUP, short_duration := short_duration,
    long_duration := long_duration, margin := margin }

/-- np.cumsum with a running accumulator. -/
def cumsumFrom (acc : ℚ) : List ℚ → List ℚ
  | [] => []
  | x :: xs => (acc + x) :: cumsumFrom (acc + x) xs

/-- np.cumsum(a, dtype=float), exactly. -/
def cumsum (a : List ℚ) : List ℚ := cumsumFrom 0 a

/-- MomentumAgent.ma(a, n): ret = np.cumsum(a); ret[n:] = ret[n:] - ret[:-n]
(entry i for i ≥ n becomes ret[i] - ret[i - n], the right-hand side reading the
original cumsum, which numpy materializes before assigning); return
ret[n - 1:] / n. -/
def ma (a : List ℚ) (n : ℕ) : List ℚ :=
  let ret := cumsum a
  let ret2 := (List.range ret.length).map fun i =>
    if n ≤ i then ret.getD i 0 - ret.getD (i - n) 0 else ret.getD i 0
  (ret2.drop (n - 1)).map fun x => x / (n : ℚ)

/-- getWakeFrequency: Timedelta(int(round(delta)) ns) of the private-stream
exponential draw delta. -/
def getWakeFrequency (delta_time : ℚ) : ℚ := (np_round delta_time : ℚ)

/-- wakeup(currentTime): if the base class reports the agent can trade, request
the spread and enter AWAITING_SPREAD; no next wakeup is scheduled here. -/
def wakeup (can_trade : Bool) (s : State) : State × List Act :=
  if can_trade then
    ({ s with phase := Phase.AWAITING_SPREAD }, [Act.requestSpread])
  else (s, [])

/-- receiveMessage(currentTime, msg): on a QUERY_SPREAD response while
AWAITING_SPREAD, record the book volumes; with both quotes present append the
mid price; once the window exceeds long duration, evict the oldest sample,
compute both rounded moving averages and, when both are nonzero (Python float
truthiness), place one market order sized np.round(opposing volume ** 0.35)
according to the crossover with margin; in every processed case schedule the
next wakeup and return to AWAITING_WAKEUP.  Indexing ma(...)[-1] on an empty
array would raise in Python, modelled as error.  t is currentTime and delta
the private exponential draw behind getWakeFrequency. -/
def receiveMessage (snap : Snapshot) (k : MsgKind) (t delta : ℚ) (s : State) :
    Except Unit (State × List Act) :=
  if s.phase = Phase.AWAITING_SPREAD ∧ k = MsgKind.QUERY_SPREAD then
    let s := { s with bidvol := snap.bidsize, askvol := snap.asksize }
    match snap.bid, snap.ask with
    | some bid, some ask =>
        let mid : ℚ := ((bid : ℚ) + (ask : ℚ)) / 2
        let s := { s with mid_list := s.mid_list ++ [mid] }
        if s.mid_list.length > s.long_duration then
          let s := { s with mid_list := s.mid_list.tail }
          match (ma s.mid_list s.short_duration).getLast?,
                (ma s.mid_list s.long_duration).getLast? with
          | some rawS, some rawL =>
              let maSv : ℚ := (np_round rawS : ℤ)
              let maLv : ℚ := (np_round rawL : ℤ)
              let s := { s with ma_short := some maSv, ma_long := some maLv }
              let orders : List Act :=
                if maSv ≠ 0 ∧ maLv ≠ 0 then
                  if maSv < maLv - s.margin then
                    [Act.placeMarket ⟨false, np_round_pow035 s.bidvol⟩]
                  else if maSv > maLv + s.margin then
                    [Act.placeMarket ⟨true, np_round_pow035 s.askvol⟩]
                  else []
                else []
              Except.ok ({ s with phase := Phase.AWAITING_WAKEUP },
                         orders ++ [Act.setWakeup (t + getWakeFrequency delta)])
          | _, _ => Except.error ()
        else
          Except.ok ({ s with phase := Phase.AWAITING_WAKEUP },
                     [Act.setWakeup (t + getWakeFrequency delta)])
    | _, _ =>
        Except.ok ({ s with phase := Phase.AWAITING_WAKEUP },
                   [Act.setWakeup (t + getWakeFrequency delta)])
  else Except.ok (s, [])

end MomentumAgent

/-- Direct windowed-average specification, following the spec text: the j-th
moving average is the arithmetic mean of the n consecutive entries
a[j] .. a[j + n - 1]. -/
def movingAverageSpec (a : List ℚ) (n : ℕ) (j : ℕ) : ℚ :=
  ((a.drop j).take n).sum / (n : ℚ)

/-- The last n entries of a list (the n most recent samples). -/
def lastN (n : ℕ) (l : List ℚ) : List ℚ := l.drop (l.length - n)

/-- The mid price recorded by the momentum handler when both quotes are
present. -/
def midOf (snap : Snapshot) : Option ℚ :=
  match snap.bid, snap.ask with
  | some b, some a => some (((b : ℚ) + (a : ℚ)) / 2)
  | _, _ => none

/-- Mid prices appended over a sequence of snapshots. -/
def midsOf (snaps : List Snapshot) : List ℚ := snaps.filterMap midOf

/-- Run one momentum decision cycle per snapshot — a tradable wakeup followed
by the processed spread response — accumulating all outbound calls. -/
def momCycles (snaps : List Snapshot) (s : MomentumAgent.State) :
    Except Unit (MomentumAgent.State × List Act) :=
  match snaps with
  | [] => Except.ok (s, [])
  | snap :: rest =>
      let w := MomentumAgent.wakeup true s
      match MomentumAgent.receiveMessage snap MsgKind.QUERY_SPREAD 0 1 w.1 with
      | Except.ok (s1, acts) =>
          match momCycles rest s1 with
          | Except.ok (s2, acts2) => Except.ok (s2, (w.2 ++ acts) ++ acts2)
          | Except.error e => Except.error e
      | Except.error e => Except.error e

/-- getOrderSize, textually identical in ZI_market_order_agent and
MomentumAgent: order_size = np.ceil(70 / np.random.power(3.5)), where the
power-law sample is drawn from the SHARED GLOBAL numpy stream (np.random), not
from self.random_state; then i = self.random_state.rand() (the private
stream); with i < 0.8 keep the size as is, otherwise first add 5 when the size
is below 5 and then round to the nearest multiple of ten (np.round(x, -1)).
The two draws are passed explicitly, named by their source stream. -/
def getOrderSize (global_pow_draw : ℚ) (private_rand_draw : ℚ) : ℚ :=
  let order_size : ℚ := ((⌈(70 : ℚ) / global_pow_draw⌉ : ℤ) : ℚ)
  if private_rand_draw < 4 / 5 then order_size
  else
    let order_size := if order_size < 5 then order_size + 5 else order_size
    ((10 * np_round (order_size / 10) : ℤ) : ℚ)

lemma length_flatMap_pair {α β : Type} (l : List α) (f g : α → β) :
    (l.flatMap fun i => [f i, g i]).length = 2 * l.length := by
  induction l with
  | nil => rfl
  | cons x xs ih =>
    simp only [List.flatMap_cons, List.length_append, List.length_cons,
      List.length_nil, ih]
    omega

/-- np.round of an exact integer is that integer. -/
lemma np_round_int (n : ℤ) : np_round (n : ℚ) = n := by
  simp [np_round]

/-- C1: for every valuation estimate obtained from the oracle observation, the
ladder strategy emits exactly 198 limit orders: for each offset i in 1..99 one
buy at ⌊p⌋ - i and one sell at ⌊p⌋ + i with quantity min(i+1, 5), all
pairwise distinct, and none at price ⌊p⌋ itself (p is integral, so ⌊p⌋ = p). -/
theorem ladder_emission_exact (obs : ℚ) :
    (InitialOrderAgent.placeOrder (InitialOrderAgent.updateEstimates obs)).length = 198 ∧
    (∀ o : LimOrder,
      o ∈ InitialOrderAgent.placeOrder (InitialOrderAgent.updateEstimates obs) ↔
      ∃ i : ℕ, 1 ≤ i ∧ i ≤ 99 ∧
        (o = ⟨true, min (i + 1) 5,
              ⌊(InitialOrderAgent.updateEstimates obs : ℚ)⌋ - (i : ℤ)⟩ ∨
         o = ⟨false, min (i + 1) 5,
              ⌊(InitialOrderAgent.updateEstimates obs : ℚ)⌋ + (i : ℤ)⟩)) ∧
    (InitialOrderAgent.placeOrder (InitialOrderAgent.updateEstimates obs)).Nodup ∧
    (∀ o ∈ InitialOrderAgent.placeOrder (InitialOrderAgent.updateEstimates obs),
      o.limit_price ≠ ⌊(InitialOrderAgent.updateEstimates obs : ℚ)⌋) := by
  set p : ℤ := InitialOrderAgent.updateEstimates obs with hp
  have hfloor : ⌊(p : ℚ)⌋ = p := Int.floor_intCast p
  rw [hfloor]
  refine ⟨?_, ?_, ?_, ?_⟩
  · rw [InitialOrderAgent.placeOrder, length_flatMap_pair]
    simp
  · intro o
    rw [InitialOrderAgent.placeOrder, List.mem_flatMap]
    constructor
    · rintro ⟨i, hi, ho⟩
      have hi' : 1 ≤ i ∧ i < 1 + 99 := List.mem_range'_1.mp hi
      simp only [List.mem_cons, List.mem_singleton] at ho
      exact ⟨i, hi'.1, by omega, by
        rcases ho with h | h | h
        · exact Or.inl (by rw [h]; rfl)
        · exact Or.inr (by rw [h]; rfl)
        · exact absurd h (List.not_mem_nil o)⟩
    · rintro ⟨i, h1, h99, ho⟩
      refine ⟨i, List.mem_range'_1.mpr ⟨h1, by omega⟩, ?_⟩
      rcases ho with h | h
      · rw [h]; exact List.mem_cons_self _ _
      · rw [h]; exact List.mem_cons_of_mem _ (List.mem_cons_self _ _)
  · rw [InitialOrderAgent.placeOrder, List.nodup_flatMap]
    constructor
    · intro i hi
      have hi' : 1 ≤ i ∧ i < 1 + 99 := List.mem_range'_1.mp hi
      simp only [List.nodup_cons, List.mem_singleton, List.not_mem_nil,
        not_false_iff, List.nodup_nil, and_true]
      intro h
      exact absurd (congrArg LimOrder.is_buy h) (by simp)
    · have hpl : (List.range' 1 99).Pairwise (· < ·) := List.pairwise_lt_range' 1 99
      refine hpl.imp ?_
      intro i j hij
      intro o hoi hoj
      simp only [List.mem_cons, List.mem_singleton, List.not_mem_nil, or_false] at hoi hoj
      have hij' : (i : ℤ) ≠ (j : ℤ) := by exact_mod_cast Nat.ne_of_lt hij
      rcases hoi with h1 | h1 <;> rcases hoj with h2 | h2 <;>
        (rw [h1] at h2; injection h2 with hb hq hpz) <;> omega
  · intro o ho
    rw [InitialOrderAgent.placeOrder, List.mem_flatMap] at ho
    obtain ⟨i, hi, hmem⟩ := ho
    have hi' : 1 ≤ i ∧ i < 1 + 99 := List.mem_range'_1.mp hi
    simp only [List.mem_cons, List.mem_singleton, List.not_mem_nil, or_false] at hmem
    rcases hmem with h | h <;> rw [h] <;> simp <;> omega

/-- C8: for the directional market strategy with both quotes present, if the
valuation estimate exceeds mid = (bid + ask) / 2 exactly one market buy sized
np.round(asksize ** 0.35) is emitted, if below exactly one market sell sized
np.round(bidsize ** 0.35), and on an exact tie no order is emitted. -/
theorem directional_market_decision (b a : ℤ) (bs asz : ℕ) (obs : ℚ)
    (s : ZI_market_order_agent.State) :
    ∃ s1, ZI_market_order_agent.placeOrder ⟨some b, bs, some a, asz⟩ obs s =
      Except.ok (s1,
        if ((ZI_market_order_agent.updateEstimates obs : ℚ)) > ((b : ℚ) + (a : ℚ)) / 2 then
          [Act.placeMarket ⟨true, np_round_pow035 asz⟩]
        else if ((ZI_market_order_agent.updateEstimates obs : ℚ)) < ((b : ℚ) + (a : ℚ)) / 2 then
          [Act.placeMarket ⟨false, np_round_pow035 bs⟩]
        else []) := by
  unfold ZI_market_order_agent.placeOrder
  dsimp only
  split
  · exact ⟨_, rfl⟩
  · split
    · exact ⟨_, rfl⟩
    · exact ⟨_, rfl⟩

/-- C4 is violated by the code: with both quotes present but zero resting ask
depth and an estimate above mid, the directional strategy submits a market buy
of quantity np.round(0 ** 0.35) = 0 — no flooring or skipping exists in the
source. -/
theorem degenerate_zero_quantity_submitted :
    ZI_market_order_agent.placeOrder ⟨some 100, 1, some 102, 0⟩ 105
        ZI_market_order_agent.init =
      Except.ok ({ trading := false, phase := Phase.AWAITING_WAKEUP,
                   order_count := 1, buy_order_count := 1, order_size := 0 },
                 [Act.placeMarket ⟨true, 0⟩]) := by
  unfold ZI_market_order_agent.placeOrder
  dsimp only
  rw [if_pos]
  · rfl
  · show ((ZI_market_order_agent.updateEstimates 105 : ℚ)) > ((100 : ℚ) + (102 : ℚ)) / 2
    have h : ZI_market_order_agent.updateEstimates 105 = 105 := by
      have := np_round_int 105
      simpa [ZI_market_order_agent.updateEstimates] using this
    rw [h]
    norm_num

/-- C5 is violated by the code: a decision cycle of the directional strategy
with the best bid absent reaches the error branch (the Python source evaluates
(bid + ask) / 2 with bid = None and raises a TypeError), instead of skipping
the cycle; the momentum strategy, by contrast, guards on both quotes. -/
theorem missing_quote_cycle_fails :
    ZI_market_order_agent.receiveMessage ⟨true, true, false, false⟩
        ⟨none, 0, some 101, 5⟩ 100 MsgKind.QUERY_SPREAD
        { trading := true, phase := Phase.AWAITING_SPREAD, order_count := 0,
          buy_order_count := 0, order_size := 1 } =
      Except.error () := by
  rfl

/-- C2 counterexample: the combination fill = cancel = True does arise from the
agent's own transitions.  The very first steady-state wakeup in an open market
(from the constructed state, where fill = True and cancel = False) sets cancel
to True while never clearing fill, so the successor state has both flags
simultaneously true. -/
theorem fill_cancel_both_true_reachable :
    (InitialOrderAgent.wakeup ⟨true, true, false, false⟩ 0
        InitialOrderAgent.init).1.fill = true ∧
    (InitialOrderAgent.wakeup ⟨true, true, false, false⟩ 0
        InitialOrderAgent.init).1.cancel = true := by
  constructor <;> rfl

/-- C2 amended: both flags true is reached by the policy's own first
steady-state wakeup (fill is never cleared when cancel is set); and from any
state with both flags true, provided the market is not in the
closed-without-recorded-close-price condition, the wakeup handler leaves the
phase INACTIVE and emits no order, no spread request and no cancellation — at
most the next-wakeup scheduling call. -/
theorem fill_cancel_flags_amended :
    ((InitialOrderAgent.wakeup ⟨true, true, false, false⟩ 0
        InitialOrderAgent.init).1.fill = true ∧
     (InitialOrderAgent.wakeup ⟨true, true, false, false⟩ 0
        InitialOrderAgent.init).1.cancel = true) ∧
    ∀ (env : MktEnv) (t : ℚ) (s : InitialOrderAgent.State),
      s.fill = true → s.cancel = true →
      (env.mkt_closed = false ∨ env.haveClosePrice = true) →
      (InitialOrderAgent.wakeup env t s).1.phase = Phase.INACTIVE ∧
      ∀ a ∈ (InitialOrderAgent.wakeup env t s).2, ∃ w, a = Act.setWakeup w := by
  refine ⟨⟨rfl, rfl⟩, ?_⟩
  intro env t s hf hc hterm
  obtain ⟨o, c, cl, hv⟩ := env
  obtain ⟨f, ca, fr, sr, tr, ph⟩ := s
  have hf' : f = true := hf
  have hc' : ca = true := hc
  subst hf'
  subst hc'
  rcases hterm with hcl | hhv
  · have hcl' : cl = false := hcl
    subst hcl'
    cases o <;> cases c <;> cases hv <;> cases fr <;> cases sr <;>
      refine ⟨rfl, ?_⟩ <;> intro a ha <;> fin_cases ha <;> exact ⟨_, rfl⟩
  · have hhv' : hv = true := hhv
    subst hhv'
    cases o <;> cases c <;> cases cl <;> cases fr <;> cases sr <;>
      refine ⟨rfl, ?_⟩ <;> intro a ha <;> fin_cases ha <;> exact ⟨_, rfl⟩

/-- Witness for the C2 amended theorem at a concrete both-flags-true state. -/
theorem fill_cancel_flags_amended_witness :
    (InitialOrderAgent.wakeup ⟨true, true, false, false⟩ 0
        { fill := true, cancel := true, first_run := false, second_run := false,
          trading := true, phase := Phase.AWAITING_WAKEUP }).1.phase =
      Phase.INACTIVE :=
  (fill_cancel_flags_amended.2 ⟨true, true, false, false⟩ 0
    { fill := true, cancel := true, first_run := false, second_run := false,
      trading := true, phase := Phase.AWAITING_WAKEUP } rfl rfl (Or.inl rfl)).1

/-- A wakeup issues at most one spread request. -/
lemma countReq_wakeup_le_one (env : MktEnv) (t delta : ℚ)
    (s : ZI_market_order_agent.State) :
    countReq (ZI_market_order_agent.wakeup env t delta s).2 ≤ 1 := by
  unfold ZI_market_order_agent.wakeup
  split_ifs <;> simp [countReq, isRequestSpread]

/-- The message handler never issues a spread request, so ziStep sound-ly
ignores its action list for the outstanding count. -/
lemma countReq_receiveMessage (env : MktEnv) (snap : Snapshot) (obs : ℚ)
    (k : MsgKind) (s : ZI_market_order_agent.State)
    (r : ZI_market_order_agent.State × List Act)
    (h : ZI_market_order_agent.receiveMessage env snap obs k s = Except.ok r) :
    countReq r.2 = 0 := by
  unfold ZI_market_order_agent.receiveMessage at h
  split_ifs at h
  · cases h
    rfl
  · revert h
    unfold ZI_market_order_agent.placeOrder
    rcases snap.bid with _ | b <;> rcases snap.ask with _ | a <;> dsimp only
    · intro h; cases h
    · intro h; cases h
    · intro h; cases h
    · split_ifs <;> intro h <;> cases h <;> rfl
  · cases h
    rfl

/-- C3 counterexample: there is no structural guard.  From the constructed
state, a first wakeup in an open market issues a spread request and enters
AWAITING_SPREAD; a second wakeup delivered before any response re-issues the
request, leaving two requests outstanding — the agent's own transitions do
enter AWAITING_SPREAD twice with no intervening response. -/
theorem second_spread_request_while_outstanding :
    (ziStep (ZIEvent.wakeup ⟨true, true, false, false⟩ 0 1)
        ⟨ZI_market_order_agent.init, 0⟩).outstanding = 1 ∧
    (ziStep (ZIEvent.wakeup ⟨true, true, false, false⟩ 0 1)
        ⟨ZI_market_order_agent.init, 0⟩).agent.phase = Phase.AWAITING_SPREAD ∧
    (ziStep (ZIEvent.wakeup ⟨true, true, false, false⟩ 1 1)
        (ziStep (ZIEvent.wakeup ⟨true, true, false, false⟩ 0 1)
          ⟨ZI_market_order_agent.init, 0⟩)).outstanding = 2 := by
  refine ⟨?_, ?_, ?_⟩ <;> rfl

/-- C3 amended: the agent has no guard against re-issuing a spread request (a
wakeup while AWAITING_SPREAD issues a fresh one); at most one request is
outstanding only under the delivery assumption that every response arrives
before the agent's next wakeup, formalized by the ReachAssuming relation. -/
theorem at_most_one_outstanding_under_delivery_assumption (st : ZIInstr)
    (h : ReachAssuming st) : st.outstanding ≤ 1 := by
  induction h with
  | init => exact Nat.zero_le 1
  | wakeup st env t delta _ h0 =>
      have hb := countReq_wakeup_le_one env t delta st.agent
      simp only [ziStep]
      omega
  | msg st env snap obs k _ ih =>
      simp only [ziStep]
      split
      · show st.outstanding - 1 ≤ 1
        omega
      · exact ih

/-- Witness for the C3 amended theorem at the constructed state. -/
theorem at_most_one_outstanding_witness :
    (⟨ZI_market_order_agent.init, 0⟩ : ZIInstr).outstanding ≤ 1 :=
  at_most_one_outstanding_under_delivery_assumption
    ⟨ZI_market_order_agent.init, 0⟩ ReachAssuming.init

/-- C6 counterexample: a momentum wakeup that is allowed to trade issues its
spread request without scheduling any next wakeup — the momentum strategy only
schedules its next wakeup in the spread-response handler, so a lost response
leaves it without a future activation. -/
theorem momentum_wakeup_no_scheduling :
    (MomentumAgent.wakeup true (MomentumAgent.init 20 40 0)).2 =
      [Act.requestSpread] ∧
    (MomentumAgent.wakeup true (MomentumAgent.init 20 40 0)).2.countP
      isSetWakeup = 0 := by
  constructor <;> rfl

/-- C6 amended: the ladder and directional strategies schedule the next wakeup
as the first outbound call of any wakeup that runs with the session times known
and the terminal closed-with-recorded-close condition false; the momentum
strategy does not — its tradable wakeup emits only the spread request (its
scheduling happens in the response handler instead). -/
theorem wakeup_schedules_before_request_amended :
    (∀ (env : MktEnv) (t delta : ℚ) (s : InitialOrderAgent.State)
       (s2 : ZI_market_order_agent.State),
      env.mkt_open = true → env.mkt_close = true →
      ¬(env.mkt_closed = true ∧ env.haveClosePrice = true) →
      isSetWakeup ((InitialOrderAgent.wakeup env t s).2.headD Act.cancelAll) =
        true ∧
      isSetWakeup
        ((ZI_market_order_agent.wakeup env t delta s2).2.headD Act.cancelAll) =
        true) ∧
    (∀ s3 : MomentumAgent.State,
      (MomentumAgent.wakeup true s3).2 = [Act.requestSpread] ∧
      (MomentumAgent.wakeup true s3).2.countP isSetWakeup = 0) := by
  constructor
  · intro env t delta s s2 ho hc hterm
    obtain ⟨o, c, cl, hv⟩ := env
    have ho' : o = true := ho
    have hc' : c = true := hc
    subst ho'
    subst hc'
    obtain ⟨f, ca, fr, sr, tr, ph⟩ := s
    constructor
    · cases cl with
      | false => cases f <;> cases ca <;> cases fr <;> cases sr <;> rfl
      | true =>
          cases hv with
          | false => rfl
          | true => simp at hterm
    · cases cl with
      | false => rfl
      | true =>
          cases hv with
          | false => rfl
          | true => simp at hterm
  · intro s3
    exact ⟨rfl, rfl⟩

/-- Witness for the C6 amended theorem at concrete inputs. -/
theorem wakeup_schedules_before_request_witness :
    isSetWakeup ((InitialOrderAgent.wakeup ⟨true, true, false, false⟩ 0
        InitialOrderAgent.init).2.headD Act.cancelAll) = true ∧
    (MomentumAgent.wakeup true (MomentumAgent.init 20 40 0)).2 =
      [Act.requestSpread] :=
  ⟨(wakeup_schedules_before_request_amended.1 ⟨true, true, false, false⟩ 0 1
      InitialOrderAgent.init ZI_market_order_agent.init rfl rfl
      (fun h => Bool.false_ne_true h.1)).1,
   (wakeup_schedules_before_request_amended.2 (MomentumAgent.init 20 40 0)).1⟩

lemma cumsumFrom_length (acc : ℚ) (a : List ℚ) :
    (MomentumAgent.cumsumFrom acc a).length = a.length := by
  induction a generalizing acc with
  | nil => rfl
  | cons x xs ih => simp [MomentumAgent.cumsumFrom, ih]

lemma cumsumFrom_getD (a : List ℚ) : ∀ (acc : ℚ) (i : ℕ), i < a.length →
    (MomentumAgent.cumsumFrom acc a).getD i 0 = acc + (a.take (i + 1)).sum := by
  induction a with
  | nil => intro acc i h; exact absurd h (Nat.not_lt_zero i)
  | cons x xs ih =>
      intro acc i h
      cases i with
      | zero => simp [MomentumAgent.cumsumFrom]
      | succ j =>
          have hj : j < xs.length := by
            simpa using h
          simp only [MomentumAgent.cumsumFrom, List.getD_cons_succ]
          rw [ih (acc + x) j hj, List.take_succ_cons, List.sum_cons]
          ring

lemma ma_length (a : List ℚ) (n : ℕ) :
    (MomentumAgent.ma a n).length = a.length - (n - 1) := by
  simp [MomentumAgent.ma, MomentumAgent.cumsum, cumsumFrom_length]

/-- C7: for every list with at least n entries and window length n ≥ 1, the
prefix-sum moving average agrees entrywise with the directly computed windowed
average. -/
theorem ma_prefix_equals_windowed (a : List ℚ) (n j : ℕ) (h1 : 1 ≤ n)
    (h2 : n ≤ a.length) (hj : j < (MomentumAgent.ma a n).length) :
    (MomentumAgent.ma a n).get ⟨j, hj⟩ = movingAverageSpec a n j := by
  have hlen : (MomentumAgent.ma a n).length = a.length - (n - 1) := ma_length a n
  have hjL : j < a.length - (n - 1) := hlen ▸ hj
  have hcl : (MomentumAgent.cumsum a).length = a.length := cumsumFrom_length 0 a
  show ((((List.range (MomentumAgent.cumsum a).length).map fun i =>
      if n ≤ i then (MomentumAgent.cumsum a).getD i 0 -
        (MomentumAgent.cumsum a).getD (i - n) 0
      else (MomentumAgent.cumsum a).getD i 0).drop (n - 1)).map
        fun x => x / (n : ℚ)).get ⟨j, hj⟩ = movingAverageSpec a n j
  rw [List.get_eq_getElem]
  dsimp only
  rw [List.getElem_map, List.getElem_drop, List.getElem_map, List.getElem_range]
  rcases Nat.eq_zero_or_pos j with hj0 | hjpos
  · subst hj0
    rw [if_neg (by omega)]
    rw [show n - 1 + 0 = n - 1 by omega]
    rw [show MomentumAgent.cumsum a = MomentumAgent.cumsumFrom 0 a from rfl]
    rw [cumsumFrom_getD a 0 (n - 1) (by omega)]
    rw [show n - 1 + 1 = n by omega]
    unfold movingAverageSpec
    rw [List.drop_zero, zero_add]
  · rw [if_pos (by omega)]
    rw [show MomentumAgent.cumsum a = MomentumAgent.cumsumFrom 0 a from rfl]
    rw [show n - 1 + j - n = j - 1 by omega]
    rw [cumsumFrom_getD a 0 (n - 1 + j) (by omega),
        cumsumFrom_getD a 0 (j - 1) (by omega)]
    rw [show n - 1 + j + 1 = j + n by omega, show j - 1 + 1 = j by omega]
    have hsplit : (a.take (j + n)).sum = (a.take j).sum + ((a.drop j).take n).sum := by
      rw [List.take_add, List.sum_append]
    unfold movingAverageSpec
    rw [hsplit]
    ring

/-- Witness for C7 on a concrete list and window. -/
theorem ma_prefix_equals_windowed_witness :
    (MomentumAgent.ma [(1 : ℚ), 2, 3] 2).get ⟨1, by decide⟩ =
      movingAverageSpec [(1 : ℚ), 2, 3] 2 1 :=
  ma_prefix_equals_windowed [(1 : ℚ), 2, 3] 2 1 (by norm_num) (by norm_num)
    (by decide)

lemma lastN_length (n : ℕ) (l : List ℚ) : (lastN n l).length = min l.length n := by
  simp only [lastN, List.length_drop]
  omega

lemma lastN_of_le (n : ℕ) (l : List ℚ) (h : l.length ≤ n) : lastN n l = l := by
  simp [lastN, Nat.sub_eq_zero_of_le h]

lemma lastN_idem (n : ℕ) (l : List ℚ) : lastN n (lastN n l) = lastN n l :=
  lastN_of_le n _ (by rw [lastN_length]; omega)

lemma lastN_snoc (d : ℕ) (hd : 1 ≤ d) (M : List ℚ) (m : ℚ) :
    lastN d (M ++ [m]) =
      if (lastN d M ++ [m]).length > d then (lastN d M ++ [m]).tail
      else lastN d M ++ [m] := by
  rcases Nat.lt_or_ge M.length d with hlt | hge
  · rw [lastN_of_le d M (le_of_lt hlt)]
    rw [if_neg (by simp only [List.length_append, List.length_singleton]; omega)]
    exact lastN_of_le d _
      (by simp only [List.length_append, List.length_singleton]; omega)
  · rw [if_pos (by
      simp only [List.length_append, List.length_singleton, lastN_length]
      omega)]
    unfold lastN
    simp only [List.length_append, List.length_singleton]
    rw [List.drop_append_eq_append_drop]
    rw [show M.length + 1 - d - M.length = 0 by omega, List.drop_zero]
    rw [← List.drop_one, List.drop_append_eq_append_drop]
    rw [show 1 - (M.drop (M.length - d)).length = 0 by
      simp only [List.length_drop]; omega, List.drop_zero]
    rw [List.drop_drop]
    rw [show M.length + 1 - d = M.length - d + 1 by omega]

lemma lastN_append_absorb (d : ℕ) (hd : 1 ≤ d) (r : List ℚ) :
    ∀ M : List ℚ, lastN d (lastN d M ++ r) = lastN d (M ++ r) := by
  induction r with
  | nil =>
      intro M
      rw [List.append_nil, List.append_nil, lastN_idem]
  | cons m rr ih =>
      intro M
      rw [show lastN d M ++ m :: rr = (lastN d M ++ [m]) ++ rr by simp,
          show M ++ m :: rr = (M ++ [m]) ++ rr by simp,
          ← ih (M ++ [m]), ← ih (lastN d M ++ [m])]
      have key : lastN d (lastN d M ++ [m]) = lastN d (M ++ [m]) := by
        rw [lastN_snoc d hd (lastN d M) m, lastN_idem d M, lastN_snoc d hd M m]
      rw [key]

lemma ma_getLast_isSome (a : List ℚ) (n : ℕ) (h1 : 1 ≤ n) (h2 : n ≤ a.length) :
    ∃ x, (MomentumAgent.ma a n).getLast? = some x := by
  have hne : MomentumAgent.ma a n ≠ [] := by
    intro h
    have := ma_length a n
    rw [h] at this
    simp only [List.length_nil] at this
    omega
  cases hgl : (MomentumAgent.ma a n).getLast? with
  | none =>
      exact absurd (List.getLast?_eq_none_iff.mp hgl) hne
  | some x => exact ⟨x, rfl⟩

lemma mom_receive_step (snap : Snapshot) (s : MomentumAgent.State)
    (hph : s.phase = Phase.AWAITING_SPREAD)
    (h1 : 1 ≤ s.short_duration) (h2 : s.short_duration ≤ s.long_duration)
    (hw : s.mid_list.length ≤ s.long_duration) :
    ∃ s1 acts,
      MomentumAgent.receiveMessage snap MsgKind.QUERY_SPREAD 0 1 s =
        Except.ok (s1, acts) ∧
      s1.mid_list = (match midOf snap with
                     | some m => lastN s.long_duration (s.mid_list ++ [m])
                     | none => s.mid_list) ∧
      s1.long_duration = s.long_duration ∧
      s1.short_duration = s.short_duration ∧
      ((s.mid_list.length + 1 ≤ s.long_duration ∨ midOf snap = none) →
        acts.countP isOrderAct = 0) := by
  obtain ⟨ml, mas, mal, bv, av, ph, sd, d, mg⟩ := s
  obtain ⟨ob, bs, oa, asz⟩ := snap
  have h1' : 1 ≤ sd := h1
  have h2' : sd ≤ d := h2
  have hw' : ml.length ≤ d := hw
  have hph' : ph = Phase.AWAITING_SPREAD := hph
  subst hph'
  unfold MomentumAgent.receiveMessage
  rw [if_pos ⟨rfl, rfl⟩]
  dsimp only
  rcases ob with _ | b <;> rcases oa with _ | a
  · exact ⟨_, _, rfl, rfl, rfl, rfl, fun _ => rfl⟩
  · exact ⟨_, _, rfl, rfl, rfl, rfl, fun _ => rfl⟩
  · exact ⟨_, _, rfl, rfl, rfl, rfl, fun _ => rfl⟩
  · dsimp only
    by_cases hlen : (ml ++ [((b : ℚ) + (a : ℚ)) / 2]).length > d
    · rw [if_pos hlen]
      have hmld : ml.length = d := by
        simp only [List.length_append, List.length_singleton] at hlen
        omega
      have htl : ((ml ++ [((b : ℚ) + (a : ℚ)) / 2]).tail).length = d := by
        rw [List.length_tail, List.length_append, List.length_singleton]
        omega
      obtain ⟨xS, hxS⟩ :=
        ma_getLast_isSome ((ml ++ [((b : ℚ) + (a : ℚ)) / 2]).tail) sd h1'
          (by rw [htl]; exact h2')
      obtain ⟨xL, hxL⟩ :=
        ma_getLast_isSome ((ml ++ [((b : ℚ) + (a : ℚ)) / 2]).tail) d
          (le_trans h1' h2') (by rw [htl])
      rw [hxS, hxL]
      dsimp only
      refine ⟨_, _, rfl, ?_, rfl, rfl, ?_⟩
      · show (ml ++ [((b : ℚ) + (a : ℚ)) / 2]).tail =
          lastN d (ml ++ [((b : ℚ) + (a : ℚ)) / 2])
        rw [lastN_snoc d (le_trans h1' h2') ml (((b : ℚ) + (a : ℚ)) / 2),
            lastN_of_le d ml hw']
        rw [if_pos hlen]
      · intro hc
        rcases hc with hc | hc
        · omega
        · exact absurd hc (by simp [midOf])
    · rw [if_neg hlen]
      refine ⟨_, _, rfl, ?_, rfl, rfl, fun _ => rfl⟩
      show ml ++ [((b : ℚ) + (a : ℚ)) / 2] =
        lastN d (ml ++ [((b : ℚ) + (a : ℚ)) / 2])
      exact (lastN_of_le d _ (by
        simp only [List.length_append, List.length_singleton] at hlen ⊢
        omega)).symm

lemma midsOf_cons_none {snap : Snapshot} (h : midOf snap = none)
    (rest : List Snapshot) : midsOf (snap :: rest) = midsOf rest := by
  simp [midsOf, List.filterMap_cons, h]

lemma midsOf_cons_some {snap : Snapshot} {m : ℚ} (h : midOf snap = some m)
    (rest : List Snapshot) : midsOf (snap :: rest) = m :: midsOf rest := by
  simp [midsOf, List.filterMap_cons, h]

lemma momCycles_spec (snaps : List Snapshot) :
    ∀ s : MomentumAgent.State,
      1 ≤ s.short_duration → s.short_duration ≤ s.long_duration →
      s.mid_list.length ≤ s.long_duration →
      ∃ s1 acts, momCycles snaps s = Except.ok (s1, acts) ∧
        s1.mid_list = lastN s.long_duration (s.mid_list ++ midsOf snaps) ∧
        s1.long_duration = s.long_duration ∧
        s1.short_duration = s.short_duration ∧
        (s.mid_list.length + (midsOf snaps).length ≤ s.long_duration →
          acts.countP isOrderAct = 0) := by
  induction snaps with
  | nil =>
      intro s h1 h2 hw
      refine ⟨s, [], rfl, ?_, rfl, rfl, fun _ => rfl⟩
      rw [show midsOf [] = [] from rfl, List.append_nil, lastN_of_le _ _ hw]
  | cons snap rest ih =>
      intro s h1 h2 hw
      have hd1 : 1 ≤ s.long_duration := le_trans h1 h2
      have hwph : (MomentumAgent.wakeup true s).1 =
          { s with phase := Phase.AWAITING_SPREAD } := rfl
      obtain ⟨s1, acts, hrec, hml, hld, hsd, hord⟩ :=
        mom_receive_step snap { s with phase := Phase.AWAITING_SPREAD } rfl h1 h2 hw
      have hlen1 : s1.mid_list.length ≤ s1.long_duration := by
        rw [hld]
        cases hmid : midOf snap with
        | none =>
            rw [hml, hmid]
            exact hw
        | some m =>
            rw [hml, hmid, lastN_length]
            omega
      obtain ⟨s2, acts2, hrun, hml2, hld2, hsd2, hord2⟩ :=
        ih s1 (by rw [hsd]; exact h1) (by rw [hsd, hld]; exact h2) hlen1
      refine ⟨s2, ((MomentumAgent.wakeup true s).2 ++ acts) ++ acts2, ?_, ?_, ?_, ?_, ?_⟩
      · simp only [momCycles]
        rw [hwph, hrec]
        dsimp only
        rw [hrun]
      · rw [hml2, hml, hld]
        cases hmid : midOf snap with
        | none =>
            rw [midsOf_cons_none hmid]
        | some m =>
            rw [midsOf_cons_some hmid,
                lastN_append_absorb s.long_duration hd1 (midsOf rest)
                  (s.mid_list ++ [m]),
                List.append_assoc, List.singleton_append]
      · rw [hld2, hld]
      · rw [hsd2, hsd]
      · intro htot
        rw [List.countP_append, List.countP_append]
        have hwacts : (MomentumAgent.wakeup true s).2.countP isOrderAct = 0 := rfl
        cases hmid : midOf snap with
        | none =>
            have e1 := hord (Or.inr hmid)
            have e2 : acts2.countP isOrderAct = 0 := by
              apply hord2
              rw [hml, hmid, hld]
              rw [midsOf_cons_none hmid] at htot
              exact htot
            rw [hwacts, e1, e2]
        | some m =>
            have hle : s.mid_list.length + 1 ≤ s.long_duration := by
              rw [midsOf_cons_some hmid] at htot
              simp only [List.length_cons] at htot
              omega
            have e1 := hord (Or.inl hle)
            have e2 : acts2.countP isOrderAct = 0 := by
              apply hord2
              rw [hml, hmid, hld, lastN_length]
              rw [show ({ s with phase := Phase.AWAITING_SPREAD} :
                MomentumAgent.State).mid_list = s.mid_list from rfl]
              rw [midsOf_cons_some hmid] at htot
              simp only [List.length_cons, List.length_append,
                List.length_singleton, List.length_nil] at htot ⊢
              omega
            rw [hwacts, e1, e2]

/-- C9: for the momentum strategy with long window 40 (and any short window
between 1 and 40), a run over any snapshot sequence succeeds; while 40 or fewer
mid-price samples have been appended, no market order is emitted regardless of
the sample values; and the window always equals the (at most) 40 most recent
appended samples, with length min(appended, 40) — in particular exactly 40 once
41 or more samples have been observed, never exceeding capacity. -/
theorem momentum_window_and_gating (snaps : List Snapshot) (sd : ℕ) (margin : ℚ)
    (h1 : 1 ≤ sd) (h2 : sd ≤ 40) :
    ∃ s1 acts,
      momCycles snaps (MomentumAgent.init sd 40 margin) = Except.ok (s1, acts) ∧
      s1.mid_list = (midsOf snaps).drop ((midsOf snaps).length - 40) ∧
      s1.mid_list.length = min (midsOf snaps).length 40 ∧
      ((midsOf snaps).length ≤ 40 → acts.countP isOrderAct = 0) := by
  obtain ⟨s1, acts, hrun, hml, hld, hsd, hord⟩ :=
    momCycles_spec snaps (MomentumAgent.init sd 40 margin) h1 h2
      (by simp [MomentumAgent.init])
  refine ⟨s1, acts, hrun, ?_, ?_, ?_⟩
  · rw [hml]
    rfl
  · rw [hml, lastN_length]
    simp [MomentumAgent.init]
  · intro h
    apply hord
    simpa [MomentumAgent.init] using h

/-- Witness for C9 on a concrete one-snapshot run. -/
theorem momentum_window_and_gating_witness :
    ∃ s1 acts,
      momCycles [(⟨some 100, 1, some 102, 1⟩ : Snapshot)]
          (MomentumAgent.init 20 40 0) = Except.ok (s1, acts) ∧
      s1.mid_list =
        (midsOf [(⟨some 100, 1, some 102, 1⟩ : Snapshot)]).drop
          ((midsOf [(⟨some 100, 1, some 102, 1⟩ : Snapshot)]).length - 40) ∧
      s1.mid_list.length =
        min (midsOf [(⟨some 100, 1, some 102, 1⟩ : Snapshot)]).length 40 ∧
      ((midsOf [(⟨some 100, 1, some 102, 1⟩ : Snapshot)]).length ≤ 40 →
        acts.countP isOrderAct = 0) :=
  momentum_window_and_gating [(⟨some 100, 1, some 102, 1⟩ : Snapshot)]
    20 0 (by norm_num) (by norm_num)

/-- C10 counterexample: the standalone power-law order sizer does not draw
exclusively from the agent's private stream — its power-law sample comes from
the shared global numpy stream, so fixing the private stream does not fix its
output: with the identical private draw 0, global draws 1 and 1/2 give order
sizes 70 and 140. -/
theorem order_sizer_uses_global_stream :
    getOrderSize 1 0 = 70 ∧ getOrderSize (1 / 2) 0 = 140 ∧
    getOrderSize 1 0 ≠ getOrderSize (1 / 2) 0 := by
  have e1 : getOrderSize 1 0 = 70 := by
    simp only [getOrderSize]
    rw [if_pos (by norm_num)]
    norm_num
  have e2 : getOrderSize (1 / 2) 0 = 140 := by
    simp only [getOrderSize]
    rw [if_pos (by norm_num)]
    norm_num
  exact ⟨e1, e2, by rw [e1, e2]; norm_num⟩

/-- C10 amended: whatever the private-stream draw, the standalone sizer's
output still varies with the global-stream power-law draw, so the sizer's
decisions are not reproducible from the agent's private stream alone. -/
theorem order_sizer_not_private_determined (priv : ℚ) :
    getOrderSize 1 priv ≠ getOrderSize (1 / 2) priv := by
  have h70 : ((⌈(70 : ℚ) / 1⌉ : ℤ) : ℚ) = 70 := by norm_num
  have h140 : ((⌈(70 : ℚ) / (1 / 2)⌉ : ℤ) : ℚ) = 140 := by norm_num
  have e1 : np_round ((70 : ℚ) / 10) = 7 := by
    rw [show (70 : ℚ) / 10 = ((7 : ℤ) : ℚ) by norm_num, np_round_int]
  have e2 : np_round ((140 : ℚ) / 10) = 14 := by
    rw [show (140 : ℚ) / 10 = ((14 : ℤ) : ℚ) by norm_num, np_round_int]
  simp only [getOrderSize, h70, h140,
    if_neg (show ¬(70 : ℚ) < 5 by norm_num),
    if_neg (show ¬(140 : ℚ) < 5 by norm_num), e1, e2]
  split_ifs with h
  · norm_num
  · norm_num
